import Mathlib

/-!
# Verification of the Wall-Measurement repository's bespoke logic

This file shallowly embeds the hand-written logic of the repository:

* `src/app/api/analyze-construction/route.ts`: free-text material extraction
  (`extractMaterialsFromText`, `cleanMaterialName`, `standardizeUnit`),
  pricing (`getMarketPrice`) and quotation building (`generateQuotation`);
* `src/app/api/export-quotation/route.ts`: the HTML report template
  (`generateProfessionalHTML`) and the PDF-with-HTML-fallback handler;
* `src/app/api/process-media/route.ts`: the in-memory session store and the
  upload / chat / cleanup actions of its `POST` handler.

Modelling conventions:

* JavaScript strings are Lean `String`s, manipulated as `List Char`
  (all characters involved occupy a single UTF-16 code unit, so JS
  `.length` and indexing agree with the character-list view).
* JavaScript numbers are idealized as exact rationals (`ℚ`).  The repo only
  ever parses decimal digit strings, multiplies, adds, and compares, so no
  claim in scope depends on IEEE-754 rounding.  Decimal literals from the
  source are transcribed with `mkRat` (`4.5` becomes `mkRat 45 10`) to keep
  every definition kernel-evaluable.
* The three regular expressions of `extractMaterialsFromText` are embedded
  by deterministic searches that implement exactly the ECMAScript
  backtracking discipline for those patterns: starting positions are tried
  left to right, lazy `.+?` grows shortest-first, greedy `\d+` / `\w+` /
  `\s+` give back characters from the right, `\s*` before a class disjoint
  from whitespace never backtracks, and the optional groups are tried
  greedily (match first, then empty).
* Environment reads (`Date.now()`, `new Date().toLocaleDateString()`,
  `Number.prototype.toLocaleString`, `Math.random`-based session ids, the
  headless-browser PDF renderer) are threaded as explicit parameters.
-/

/-! ## Character classes of the ECMAScript regexps (non-unicode mode) -/

/-- ECMAScript `\s`: whitespace and line terminators. -/
def isJsWs (c : Char) : Bool :=
  c = ' ' || c = '\t' || c = '\n' || c = '\x0b' || c = '\x0c' || c = '\r' ||
  c = ' ' || c = ' ' ||
  (0x2000 ≤ c.toNat && c.toNat ≤ 0x200a) ||
  c = ' ' || c = ' ' || c = ' ' || c = ' ' ||
  c = '　' || c = '﻿'

/-- ECMAScript line terminators: the characters `.` does not match. -/
def isLineTerm (c : Char) : Bool :=
  c = '\n' || c = '\r' || c = ' ' || c = ' '

/-- ECMAScript `\d`. -/
def isDigitCh (c : Char) : Bool :=
  48 ≤ c.toNat && c.toNat ≤ 57

/-- ECMAScript `\w` (non-unicode): ASCII letters, digits and underscore. -/
def isWordCh (c : Char) : Bool :=
  (65 ≤ c.toNat && c.toNat ≤ 90) || (97 ≤ c.toNat && c.toNat ≤ 122) ||
  isDigitCh c || c = '_'

/-- The character class `[-â€“]` of the third pattern.  (The source file
literally contains the double-encoded bytes `â`, `€`, `“` rather than an
en-dash, so the class holds those three characters plus `-`.) -/
def isDashCh (c : Char) : Bool :=
  c = '-' || c = 'â' || c = '€' || c = '“'

/-- The character class `[-*â€˘]` of `cleanMaterialName`'s bullet strip
(again with the double-encoded bullet bytes `â`, `€`, `˘`). -/
def isBulletCh (c : Char) : Bool :=
  c = '-' || c = '*' || c = 'â' || c = '€' || c = '˘'

/-! ## Generic list helpers -/

/-- Drop the longest suffix whose characters satisfy `p`. -/
def dropEndWhile (p : Char → Bool) (l : List Char) : List Char :=
  (l.reverse.dropWhile p).reverse

/-- `String.prototype.trim`: strip `\s` characters from both ends. -/
def jsTrim (l : List Char) : List Char :=
  dropEndWhile isJsWs (l.dropWhile isJsWs)

/-- `text.split("\n")` on the character list. -/
def splitNl : List Char → List (List Char)
  | [] => [[]]
  | c :: rest =>
    if c = '\n' then [] :: splitNl rest
    else
      match splitNl rest with
      | [] => [[c]]
      | l :: ls => (c :: l) :: ls

/-- Try an anchored matcher at every start position, left to right: the
unanchored search of `String.prototype.match`. -/
def tryStarts {α : Type} (f : List Char → Option α) : List Char → Option α
  | [] => f []
  | c :: rest =>
    match f (c :: rest) with
    | some r => some r
    | none => tryStarts f rest

/-! ## The numeric capture `(\d+(?:\.\d+)?)` with backtracking

`matchNumber k cs` matches `(\d+(?:\.\d+)?)` at the start of `cs` and feeds
each candidate `(quantity characters, remaining characters)` to the
continuation `k` in exact engine order: longest digit run with the longest
fraction first, then shorter fractions, then no fraction, then shorter
digit runs (a fraction is only possible for the full run, as the character
after a shorter greedy run is a digit, not `.`). -/

/-- Fraction backtracking: try fraction lengths `fuel, fuel-1, …, 1`. -/
def fracLoop {α : Type} (k : List Char → List Char → Option α)
    (D F rest2 : List Char) : Nat → Option α
  | 0 => none
  | n + 1 =>
    match k (D ++ '.' :: F.take (n + 1)) (F.drop (n + 1) ++ rest2) with
    | some r => some r
    | none => fracLoop k D F rest2 n

/-- Integer-part backtracking: try digit-run lengths `fuel, fuel-1, …, 1`. -/
def shrinkLoop {α : Type} (k : List Char → List Char → Option α)
    (D rest1 : List Char) : Nat → Option α
  | 0 => none
  | n + 1 =>
    match k (D.take (n + 1)) (D.drop (n + 1) ++ rest1) with
    | some r => some r
    | none => shrinkLoop k D rest1 n

def matchNumber {α : Type} (k : List Char → List Char → Option α)
    (cs : List Char) : Option α :=
  let D := cs.takeWhile isDigitCh
  if D.isEmpty then none
  else
    let rest1 := cs.dropWhile isDigitCh
    let withFrac :=
      match rest1 with
      | '.' :: r2 =>
        let F := r2.takeWhile isDigitCh
        if F.isEmpty then none
        else fracLoop k D F (r2.dropWhile isDigitCh) F.length
      | _ => none
    match withFrac with
    | some r => some r
    | none =>
      match k D rest1 with
      | some r => some r
      | none => shrinkLoop k D rest1 (D.length - 1)

/-! ## Pattern 1: `/(.+?):\s*(\d+(?:\.\d+)?)\s*(\w+)/` -/

/-- `\s*(\w+)`: skip whitespace greedily, then capture a maximal nonempty
word-character run.  (`\s` and `\w` are disjoint and the pattern ends after
`(\w+)`, so no backtracking arises.) -/
def wsWord (cs : List Char) : Option (List Char) :=
  let w := (cs.dropWhile isJsWs).takeWhile isWordCh
  if w.isEmpty then none else some w

/-- The tail `\s*(\d+(?:\.\d+)?)\s*(\w+)` shared by patterns 1 and 3:
returns (quantity characters, unit characters). -/
def p1Tail (cs : List Char) : Option (List Char × List Char) :=
  matchNumber
    (fun q rest =>
      match wsWord rest with
      | some u => some (q, u)
      | none => none)
    (cs.dropWhile isJsWs)

/-- Pattern 1 anchored at a start position.  `acc` is the reversed name
captured so far by the lazy `(.+?)`; the name grows shortest-first, and
after each growth step the literal `:` and the tail are attempted. -/
def p1AtStart (acc : List Char) : List Char → Option (List Char × List Char × List Char)
  | [] => none
  | c :: rest =>
    if isLineTerm c then none
    else
      match rest with
      | ':' :: tail =>
        (match p1Tail tail with
         | some (q, u) => some ((c :: acc).reverse, q, u)
         | none => p1AtStart (c :: acc) rest)
      | _ => p1AtStart (c :: acc) rest

/-- Full unanchored search for pattern 1: (name, quantity, unit). -/
def p1Match (cs : List Char) : Option (List Char × List Char × List Char) :=
  tryStarts (p1AtStart []) cs

/-! ## Pattern 2: `/(\d+(?:\.\d+)?)\s*(\w+)\s+(?:of\s+)?(.+)/` -/

/-- `(.+)`: a maximal nonempty run of non-line-terminator characters. -/
def dotPlus (cs : List Char) : Option (List Char) :=
  let t := cs.takeWhile (fun c => !isLineTerm c)
  if t.isEmpty then none else some t

/-- Backtracking over the `\s+` inside the optional `(?:of\s+)?`. -/
def ofWsLoop (S2 tailr : List Char) : Nat → Option (List Char)
  | 0 => none
  | n + 1 =>
    match dotPlus (S2.drop (n + 1) ++ tailr) with
    | some nm => some nm
    | none => ofWsLoop S2 tailr n

/-- `(?:of\s+)?(.+)`: the optional group is tried greedily first
(literal `of`, then at least one whitespace), else `(.+)` directly. -/
def afterSpaces (cs : List Char) : Option (List Char) :=
  match cs with
  | 'o' :: 'f' :: r3 =>
    let S2 := r3.takeWhile isJsWs
    if S2.isEmpty then dotPlus cs
    else
      (match ofWsLoop S2 (r3.dropWhile isJsWs) S2.length with
       | some nm => some nm
       | none => dotPlus cs)
  | _ => dotPlus cs

/-- Backtracking over the `\s+` after the unit capture. -/
def sepWsLoop (S tailr : List Char) : Nat → Option (List Char)
  | 0 => none
  | n + 1 =>
    match afterSpaces (S.drop (n + 1) ++ tailr) with
    | some nm => some nm
    | none => sepWsLoop S tailr n

/-- `\s+(?:of\s+)?(.+)` after the unit: needs at least one whitespace. -/
def afterUnit (rest : List Char) : Option (List Char) :=
  let S := rest.takeWhile isJsWs
  if S.isEmpty then none
  else sepWsLoop S (rest.dropWhile isJsWs) S.length

/-- Backtracking over the greedy `(\w+)` unit capture of pattern 2. -/
def wordLoop (W a2 : List Char) : Nat → Option (List Char × List Char)
  | 0 => none
  | n + 1 =>
    match afterUnit (W.drop (n + 1) ++ a2) with
    | some nm => some (W.take (n + 1), nm)
    | none => wordLoop W a2 n

/-- `\s*(\w+)\s+(?:of\s+)?(.+)` after the quantity: (unit, name). -/
def p2AfterQty (rest : List Char) : Option (List Char × List Char) :=
  let a1 := rest.dropWhile isJsWs
  let W := a1.takeWhile isWordCh
  if W.isEmpty then none
  else wordLoop W (a1.dropWhile isWordCh) W.length

/-- Pattern 2 anchored at a start position: (quantity, unit, name). -/
def p2AtStart (cs : List Char) : Option (List Char × List Char × List Char) :=
  matchNumber
    (fun q rest =>
      match p2AfterQty rest with
      | some (u, nm) => some (q, u, nm)
      | none => none)
    cs

/-- Full unanchored search for pattern 2. -/
def p2Match (cs : List Char) : Option (List Char × List Char × List Char) :=
  tryStarts p2AtStart cs

/-! ## Pattern 3: `/(.+?)\s*[-â€“]\s*(\d+(?:\.\d+)?)\s*(\w+)/` -/

/-- Pattern 3 anchored at a start position.  After the lazily-grown name,
`\s*` (no backtracking: whitespace is not in the dash class), one dash-class
character, then the same tail as pattern 1. -/
def p3AtStart (acc : List Char) : List Char → Option (List Char × List Char × List Char)
  | [] => none
  | c :: rest =>
    if isLineTerm c then none
    else
      match rest.dropWhile isJsWs with
      | d :: tail =>
        if isDashCh d then
          (match p1Tail tail with
           | some (q, u) => some ((c :: acc).reverse, q, u)
           | none => p3AtStart (c :: acc) rest)
        else p3AtStart (c :: acc) rest
      | [] => p3AtStart (c :: acc) rest

/-- Full unanchored search for pattern 3: (name, quantity, unit). -/
def p3Match (cs : List Char) : Option (List Char × List Char × List Char) :=
  tryStarts (p3AtStart []) cs

/-! ## Captures to materials -/

/-- The numeric value of a digit run. -/
def digitsToNat (cs : List Char) : Nat :=
  cs.foldl (fun n c => 10 * n + (c.toNat - 48)) 0

/-- `Number.parseFloat` on a captured quantity, which by construction has
the shape `digits` or `digits.digits`.  Idealized as the exact rational
value of the decimal string (sign and zero agree with the double value,
which is all the code observes via `quantity > 0`). -/
def parseFloatQ (cs : List Char) : ℚ :=
  let I := cs.takeWhile isDigitCh
  match cs.dropWhile isDigitCh with
  | '.' :: F => (digitsToNat I : ℚ) + (digitsToNat (F.takeWhile isDigitCh) : ℚ) /
      ((10 : ℚ) ^ (F.takeWhile isDigitCh).length)
  | _ => (digitsToNat I : ℚ)

/-- `.replace(/^\d+\.?\s*/, "")`: strip leading numbering. -/
def stripNumbering (cs : List Char) : List Char :=
  let D := cs.takeWhile isDigitCh
  if D.isEmpty then cs
  else
    match cs.dropWhile isDigitCh with
    | '.' :: r => r.dropWhile isJsWs
    | r => r.dropWhile isJsWs

/-- `.replace(/^[-*â€˘]\s*/, "")`: strip a leading bullet. -/
def stripBullet : List Char → List Char
  | [] => []
  | c :: r => if isBulletCh c then r.dropWhile isJsWs else c :: r

/-- `.replace(/:\s*$/, "")`: remove a trailing colon (with trailing
whitespace).  The match must reach the end of the string, so it exists
exactly when the last non-whitespace character is `:`. -/
def stripTrailingColon (cs : List Char) : List Char :=
  let r := dropEndWhile isJsWs cs
  match r.reverse with
  | ':' :: rr => rr.reverse
  | _ => cs

/-- `.replace(/\b\w/g, l => l.toUpperCase())`: upper-case every word
character that starts a word (preceded by a non-word character or the
start of the string). -/
def titleCaseFrom (prevWord : Bool) : List Char → List Char
  | [] => []
  | c :: r =>
    (if isWordCh c && !prevWord then c.toUpper else c) :: titleCaseFrom (isWordCh c) r

/-- `cleanMaterialName` from `analyze-construction/route.ts`. -/
def cleanMaterialName (cs : List Char) : List Char :=
  titleCaseFrom false (jsTrim (stripTrailingColon (stripBullet (stripNumbering cs))))

/-- The `unitMap` of `standardizeUnit`, in declaration order. -/
def unitMap : List (String × String) :=
  [("pc", "pieces"), ("pcs", "pieces"), ("piece", "pieces"), ("each", "pieces"),
   ("lb", "lbs"), ("pound", "lbs"), ("pounds", "lbs"),
   ("ft", "feet"), ("foot", "feet"),
   ("yd", "yards"), ("yard", "yards"),
   ("sqft", "sq ft"), ("square feet", "sq ft"),
   ("cuft", "cu ft"), ("cubic feet", "cu ft"),
   ("cuyd", "cu yd"), ("cubic yards", "cu yd")]

/-- ASCII lower-casing of a character list (the inputs reaching
`toLowerCase` here are `\w+` captures, hence ASCII). -/
def lowerL (cs : List Char) : List Char :=
  cs.map Char.toLower

/-- First value bound to `k` in an association list. -/
def lookupKey {β : Type} : List (String × β) → String → Option β
  | [], _ => none
  | (k', v) :: t, k => if k' = k then some v else lookupKey t k

/-- `standardizeUnit` from `analyze-construction/route.ts`:
`unitMap[unit.toLowerCase()] || unit`. -/
def standardizeUnit (unit : String) : String :=
  match lookupKey unitMap ⟨lowerL unit.data⟩ with
  | some u => u
  | none => unit

/-- The `Material` record of `analyze-construction/route.ts`. -/
structure Material where
  name : String
  quantity : ℚ
  unit : String
  unitPrice : ℚ
  totalPrice : ℚ
deriving DecidableEq, Repr

/-- The three patterns, in the order of the `patterns` array. -/
inductive Pat
  | p1
  | p2
  | p3
deriving DecidableEq, Repr

def patterns : List Pat := [Pat.p1, Pat.p2, Pat.p3]

/-- Run one pattern on a line, normalising the captures to
(name, quantity, unit): the loop body reads pattern 2's captures as
`quantity, unit, name` and the other two as `name, quantity, unit`. -/
def runPattern : Pat → List Char → Option (List Char × List Char × List Char)
  | Pat.p1, cs => p1Match cs
  | Pat.p2, cs =>
    (match p2Match cs with
     | some (q, u, nm) => some (nm, q, u)
     | none => none)
  | Pat.p3, cs => p3Match cs

/-- The inner `for (const pattern of patterns)` loop of
`extractMaterialsFromText`: a pattern that matches *and* passes the
`name && quantity > 0 && unit` guard pushes a material and breaks;
otherwise the next pattern is tried. -/
def tryPatterns : List Pat → List Char → Option Material
  | [], _ => none
  | p :: ps, cs =>
    match runPattern p cs with
    | some (nm, q, u) =>
      if nm ≠ [] ∧ 0 < parseFloatQ q ∧ u ≠ [] then
        some { name := ⟨cleanMaterialName nm⟩, quantity := parseFloatQ q,
               unit := standardizeUnit ⟨u⟩, unitPrice := 0, totalPrice := 0 }
      else tryPatterns ps cs
    | none => tryPatterns ps cs

/-- The per-line pass of `extractMaterialsFromText`, before the final
`slice(0, 50)`: split on newlines, trim, skip lines shorter than 5
characters, and run the pattern loop. -/
def processedLines (text : String) : List Material :=
  (splitNl text.data).filterMap fun l =>
    let t := jsTrim l
    if t.length < 5 then none else tryPatterns patterns t

/-- `extractMaterialsFromText` from `analyze-construction/route.ts`. -/
def extractMaterialsFromText (text : String) : List Material :=
  (processedLines text).take 50

/-! ## Pricing: `getMarketPrice` from `analyze-construction/route.ts`

The `priceDatabase` object literal, transcribed in declaration order
(object property iteration order for string keys is insertion order, which
`Object.keys` reproduces).  Decimal literals are written with `mkRat` to
keep them kernel-evaluable. -/

def priceDatabase : List (String × List (String × ℚ)) :=
  [("concrete", [("cu yd", 120), ("cu ft", mkRat 45 10)]),
   ("ready mix concrete", [("cu yd", 120), ("cu ft", mkRat 45 10)]),
   ("steel rebar", [("lbs", mkRat 75 100), ("pieces", mkRat 85 10)]),
   ("rebar", [("lbs", mkRat 75 100), ("pieces", mkRat 85 10)]),
   ("lumber", [("pieces", mkRat 85 10), ("board ft", mkRat 225 100)]),
   ("2x4 lumber", [("pieces", mkRat 85 10)]),
   ("2x6 lumber", [("pieces", mkRat 125 10)]),
   ("2x8 lumber", [("pieces", mkRat 185 10)]),
   ("plywood", [("pieces", 35), ("sq ft", mkRat 125 100)]),
   ("hammer", [("pieces", 25)]),
   ("drill", [("pieces", 85)]),
   ("saw", [("pieces", 150)]),
   ("circular saw", [("pieces", 180)]),
   ("screwdriver", [("pieces", 15)]),
   ("wrench", [("pieces", 20)]),
   ("pliers", [("pieces", 18)]),
   ("level", [("pieces", 35)]),
   ("measuring tape", [("pieces", 25)]),
   ("nails", [("lbs", mkRat 35 10), ("pieces", mkRat 5 100)]),
   ("screws", [("lbs", mkRat 42 10), ("pieces", mkRat 8 100)]),
   ("bolts", [("pieces", mkRat 125 100)]),
   ("nuts", [("pieces", mkRat 35 100)]),
   ("washers", [("pieces", mkRat 15 100)]),
   ("drywall", [("pieces", 15), ("sq ft", mkRat 65 100)]),
   ("paint", [("gallons", 45), ("pieces", 45)]),
   ("tile", [("sq ft", mkRat 425 100), ("pieces", mkRat 215 100)]),
   ("insulation", [("sq ft", mkRat 12 10), ("pieces", 45)]),
   ("ladder", [("pieces", 125)]),
   ("scaffolding", [("pieces", 85)]),
   ("safety helmet", [("pieces", 25)]),
   ("safety gloves", [("pieces", 12)]),
   ("safety glasses", [("pieces", 8)]),
   ("wire", [("feet", mkRat 225 100), ("lbs", mkRat 38 10)]),
   ("electrical wire", [("feet", mkRat 225 100), ("lbs", mkRat 38 10)]),
   ("outlet", [("pieces", mkRat 85 10)]),
   ("switch", [("pieces", mkRat 65 10)]),
   ("pipe", [("feet", mkRat 48 10)]),
   ("pvc pipe", [("feet", mkRat 48 10)]),
   ("fitting", [("pieces", mkRat 325 100)]),
   ("valve", [("pieces", mkRat 155 10)])]

/-- The `fallbackPrices` table. -/
def fallbackPrices : List (String × ℚ) :=
  [("pieces", 10), ("lbs", mkRat 25 10), ("feet", mkRat 35 10),
   ("sq ft", mkRat 28 10), ("cu ft", mkRat 85 10), ("cu yd", 85),
   ("gallons", 35)]

/-- `String.prototype.includes`: `needle` occurs contiguously in `hay`. -/
def containsSub (needle : List Char) : List Char → Bool
  | [] => needle.isEmpty
  | c :: t => needle.isPrefixOf (c :: t) || containsSub needle t

/-- `materialName.toLowerCase().includes(key.toLowerCase())`. -/
def keyMatches (materialName key : String) : Bool :=
  containsSub (lowerL key.data) (lowerL materialName.data)

/-- `fallbackPrices[unit] || 5` (JS `||`: a `0` entry would also fall
through to `5`). -/
def unitFallback (unit : String) : ℚ :=
  match lookupKey fallbackPrices unit with
  | some p => if p = 0 then 5 else p
  | none => 5

/-- `getMarketPrice` from `analyze-construction/route.ts`:
`Object.keys(priceDatabase).find(key => name.toLowerCase().includes(key.toLowerCase()))`,
then `if (materialKey && priceDatabase[materialKey][unit])` return that
price, else the unit fallback. -/
def getMarketPrice (materialName unit : String) : ℚ :=
  match priceDatabase.find? (fun kv => keyMatches materialName kv.1) with
  | some kv =>
    (match lookupKey kv.2 unit with
     | some p => if p = 0 then unitFallback unit else p
     | none => unitFallback unit)
  | none => unitFallback unit

/-- `getPricingForMaterials` (its loop body; the surrounding `fetch`
plumbing is outside scope): reprice each material. -/
def getPricingForMaterials (materials : List Material) : List Material :=
  materials.map fun m =>
    let unitPrice := getMarketPrice m.name m.unit
    { name := m.name, quantity := m.quantity, unit := m.unit,
      unitPrice := unitPrice, totalPrice := unitPrice * m.quantity }

/-! ## Quotation builder: `generateQuotation` -/

/-- The `QuotationResult` record (also `QuotationData` in
`export-quotation/route.ts`). -/
structure QuotationResult where
  materials : List Material
  subtotal : ℚ
  laborCost : ℚ
  equipmentCost : ℚ
  overhead : ℚ
  totalCost : ℚ
  projectName : String
  date : String
deriving DecidableEq, Repr

/-- `videoName.replace(/\.[^/.]+$/, "")`: drop the final extension — the
match must run to the end of the string, so it strips from the last `.`
provided at least one character follows it and none of them is `/` . -/
def stripFileExtension (cs : List Char) : List Char :=
  let rev := cs.reverse
  let t := rev.takeWhile (fun c => !(c = '.' || c = '/'))
  match rev.drop t.length with
  | '.' :: r => if t.isEmpty then cs else r.reverse
  | _ => cs

/-- `generateQuotation` from `analyze-construction/route.ts`.  The
`date` field is `new Date().toLocaleDateString()` in the source; the
clock/locale reading is passed in as `dateStr`. -/
def generateQuotation (materials : List Material) (videoName : String)
    (dateStr : String) : QuotationResult :=
  let subtotal := materials.foldl (fun sum m => sum + m.totalPrice) 0
  let laborCost := subtotal * mkRat 6 10
  let equipmentCost := subtotal * mkRat 15 100
  let overhead := (subtotal + laborCost + equipmentCost) * mkRat 2 10
  { materials := materials,
    subtotal := subtotal,
    laborCost := laborCost,
    equipmentCost := equipmentCost,
    overhead := overhead,
    totalCost := subtotal + laborCost + equipmentCost + overhead,
    projectName := ⟨stripFileExtension videoName.data⟩,
    date := dateStr }

/-! ## Session store and `process-media/route.ts`

The module-level `sessions = new Map<string, SessionData>()` is modelled
as an association list with JS `Map` semantics: `set` replaces in place or
appends, `get` finds the unique binding, `delete` removes it. -/

/-- The `SessionData` record. -/
structure SessionData where
  assetList : List String
  extList : List String
  mediaContent : String
  uploadedAt : Nat
  hasVideo : Bool
deriving DecidableEq, Repr

/-- The in-memory `sessions` map. -/
abbrev Sessions := List (String × SessionData)

def mapGet : Sessions → String → Option SessionData
  | [], _ => none
  | (k', v) :: t, k => if k' = k then some v else mapGet t k

/-- `Map.prototype.set`: overwrite in place, else append. -/
def mapSet : Sessions → String → SessionData → Sessions
  | [], k, v => [(k, v)]
  | (k', v') :: t, k, v =>
    if k' = k then (k, v) :: t else (k', v') :: mapSet t k v

/-- `Map.prototype.delete`. -/
def mapDelete : Sessions → String → Sessions
  | [], _ => []
  | (k', v) :: t, k => if k' = k then mapDelete t k else (k', v) :: mapDelete t k

/-- `Map.prototype.has`. -/
def mapHas (st : Sessions) (k : String) : Bool :=
  (mapGet st k).isSome

/-- The `kSupportedList` table: extension to (mime type, media type). -/
def kSupportedList : List (String × String × String) :=
  [("png", "image/png", "img"), ("jpg", "image/jpg", "img"),
   ("jpeg", "image/jpeg", "img"), ("mp4", "video/mp4", "video")]

/-- `getExtension`: `extname(filename).toLowerCase().slice(1)`.
Node's `extname` returns the suffix from the final `.` of the basename,
and `""` when there is no `.`, or when the only `.` leads a hidden file,
so after `slice(1)` this is the text after the last `.`, lower-cased. -/
def getExtension (filename : String) : String :=
  let base := (filename.data.reverse.takeWhile (fun c => c ≠ '/')).reverse
  let t := base.reverse.takeWhile (fun c => c ≠ '.')
  match base.reverse.drop t.length with
  | '.' :: r => if r.isEmpty then "" else ⟨lowerL t.reverse⟩
  | _ => ""

def mimeType (ext : String) : String :=
  match lookupKey kSupportedList ext with
  | some p => p.1
  | none => ""

def mediaType (ext : String) : String :=
  match lookupKey kSupportedList ext with
  | some p => p.2
  | none => ""

def isSupportedExt (ext : String) : Bool :=
  (lookupKey kSupportedList ext).isSome

/-- An uploaded multipart file (only the name matters to the handler's
control flow; `uploadAsset` is stubbed in the source and returns
`dummy_asset_${Date.now()}`, modelled by the `genAsset` parameter). -/
structure UploadFile where
  name : String
deriving DecidableEq, Repr

/-- Responses of the `process-media` handler. -/
inductive PmBody
  | errMsg (msg : String)
  | uploadSuccess (sessionId : String) (message : String)
  | chatReply (content : String)
  | cleanupSuccess
deriving DecidableEq, Repr

structure PmResponse where
  status : Nat
  body : PmBody
deriving DecidableEq, Repr

/-- The accumulation loop of the upload branch: per file, validate the
extension (an unsupported one throws, caught by the handler's catch-all),
upload the asset, and accumulate the lists, media markup and video flag. -/
def buildSession (genAsset : Nat → String) :
    List UploadFile → Nat → List String → List String → String → Bool →
    Except String (List String × List String × String × Bool)
  | [], _, assetList, extList, mediaContent, hasVideo =>
    Except.ok (assetList, extList, mediaContent, hasVideo)
  | f :: fs, i, assetList, extList, mediaContent, hasVideo =>
    let ext := getExtension f.name
    if isSupportedExt ext then
      let assetId := genAsset i
      buildSession genAsset fs (i + 1) (assetList ++ [assetId]) (extList ++ [ext])
        (mediaContent ++ "<" ++ mediaType ext ++ " src=\"data:" ++ mimeType ext ++
          ";asset_id," ++ assetId ++ "\" />")
        (hasVideo || mediaType ext = "video")
    else Except.error (f.name ++ " format is not supported")

/-- The multipart-upload branch of `POST` in `process-media/route.ts`.
`genAsset i` stands for the `dummy_asset_${Date.now()}` id of the `i`-th
upload, `newSid` for the generated `session_${Date.now()}_${random}` id and
`nowMs` for `Date.now()`.  A thrown error reaches the catch-all, which
answers 500 with `String(error)`. -/
def uploadPOST (st : Sessions) (files : List UploadFile)
    (genAsset : Nat → String) (newSid : String) (nowMs : Nat) :
    PmResponse × Sessions :=
  if files.isEmpty then
    ({ status := 400, body := PmBody.errMsg "No media files provided" }, st)
  else
    match buildSession genAsset files 0 [] [] "" false with
    | Except.error msg =>
      ({ status := 500, body := PmBody.errMsg ("Error: " ++ msg) }, st)
    | Except.ok (assetList, extList, mediaContent, hasVideo) =>
      if hasVideo ∧ files.length ≠ 1 then
        ({ status := 500,
           body := PmBody.errMsg "Error: Only a single video is supported." }, st)
      else
        ({ status := 200, body := PmBody.uploadSuccess newSid "Files uploaded successfully" },
         mapSet st newSid
           { assetList := assetList, extList := extList,
             mediaContent := mediaContent, uploadedAt := nowMs,
             hasVideo := hasVideo })

/-- The `action=chat` branch.  A falsy `sessionId` or `query` is answered
400; otherwise the source calls `sessions.get(sessionId)!` and dereferences
it inside `chatWithMediaNvcf`, so a *missing* session raises a `TypeError`
that the catch-all converts into a 500 response; an existing session gets
the stubbed placeholder completion. -/
def chatPOST (st : Sessions) (sessionId : Option String)
    (query : Option String) : PmResponse × Sessions :=
  match sessionId with
  | none => ({ status := 400, body := PmBody.errMsg "Invalid or expired session" }, st)
  | some sid =>
    if sid = "" then
      ({ status := 400, body := PmBody.errMsg "Invalid or expired session" }, st)
    else
      match query with
      | none => ({ status := 400, body := PmBody.errMsg "Query is required" }, st)
      | some q =>
        if q = "" then
          ({ status := 400, body := PmBody.errMsg "Query is required" }, st)
        else
          match mapGet st sid with
          | none =>
            ({ status := 500,
               body := PmBody.errMsg
                 "TypeError: Cannot read properties of undefined (reading 'assetList')" }, st)
          | some _ =>
            ({ status := 200,
               body := PmBody.chatReply
                 "VILA API is currently disabled. This is a placeholder response." }, st)

/-- The `action=cleanup` branch: a truthy, present session id is deleted
(asset deletion is a stubbed log), otherwise 404 `Session not found`. -/
def cleanupPOST (st : Sessions) (sessionId : Option String) :
    PmResponse × Sessions :=
  match sessionId with
  | none => ({ status := 404, body := PmBody.errMsg "Session not found" }, st)
  | some sid =>
    if sid ≠ "" ∧ mapHas st sid then
      ({ status := 200, body := PmBody.cleanupSuccess }, mapDelete st sid)
    else
      ({ status := 404, body := PmBody.errMsg "Session not found" }, st)

/-- One observable transition of the session store: any upload (with a
fresh generated id — the `session_${Date.now()}_${random}` ids are assumed
collision-free), any chat, or any cleanup. -/
inductive SessionStep : Sessions → Sessions → Prop
  | upload (st : Sessions) (files : List UploadFile) (genAsset : Nat → String)
      (newSid : String) (nowMs : Nat) (hFresh : mapHas st newSid = false) :
      SessionStep st (uploadPOST st files genAsset newSid nowMs).2
  | chat (st : Sessions) (sessionId query : Option String) :
      SessionStep st (chatPOST st sessionId query).2
  | cleanup (st : Sessions) (sessionId : Option String) :
      SessionStep st (cleanupPOST st sessionId).2

/-- States reachable from the empty initial map. -/
inductive SessionReachable : Sessions → Prop
  | init : SessionReachable []
  | step {st st' : Sessions} (h : SessionReachable st)
      (hs : SessionStep st st') : SessionReachable st'

/-! ## Report renderer: `export-quotation/route.ts` -/

/-- Host-environment readings used by the export handler: locale-dependent
number/date formatting (JS `toLocaleString`, double-to-string conversion)
and the `Date.now()` millisecond clock. -/
structure JsEnv where
  numToLocaleString : ℚ → String
  numToString : ℚ → String
  dateNowLocaleString : String
  dateNowMs : Nat

/-- `Number.prototype.toFixed(2)`, idealized on exact rationals: round the
value times 100 to the nearest integer (halves away from zero) and print
with two decimals. -/
def toFixed2 (x : ℚ) : String :=
  let sign := if x < 0 then "-" else ""
  let n : Nat := (⌊|x| * 100 + mkRat 1 2⌋).toNat
  sign ++ toString (n / 100) ++ "." ++
    (if n % 100 < 10 then "0" ++ toString (n % 100) else toString (n % 100))

/-- `generateProfessionalHTML` from `export-quotation/route.ts`: the full
template literal, with each `${...}` interpolation spliced in. -/
def generateProfessionalHTML (env : JsEnv) (q : QuotationResult) : String :=
  "\n<!DOCTYPE html>\n<html>\n<head>\n    <meta charset=\"utf-8\">\n    <title>Construction Material Quotation</title>\n    <style>\n        * \x7b margin: 0; padding: 0; box-sizing: border-box; \x7d\n        \n        body \x7b\n            font-family: 'Arial', sans-serif;\n            line-height: 1.6;\n            color: #333;\n            background: white;\n        \x7d\n        \n        .container \x7b\n            max-width: 800px;\n            margin: 0 auto;\n            padding: 40px 20px;\n        \x7d\n        \n        .header \x7b\n            text-align: center;\n            margin-bottom: 40px;\n            border-bottom: 3px solid #2563eb;\n            padding-bottom: 20px;\n        \x7d\n        \n        .header h1 \x7b\n            font-size: 28px;\n            color: #1e40af;\n            margin-bottom: 10px;\n        \x7d\n        \n        .header .company \x7b\n            font-size: 18px;\n            color: #6b7280;\n            margin-bottom: 5px;\n        \x7d\n        \n        .project-info \x7b\n            background: #f8fafc;\n            padding: 20px;\n            border-radius: 8px;\n            margin-bottom: 30px;\n            display: flex;\n            justify-content: space-between;\n            align-items: center;\n        \x7d\n        \n        .project-details h2 \x7b\n            color: #1e40af;\n            font-size: 20px;\n            margin-bottom: 5px;\n        \x7d\n        \n        .project-details p \x7b\n            color: #6b7280;\n            margin-bottom: 3px;\n        \x7d\n        \n        .total-highlight \x7b\n            text-align: right;\n        \x7d\n        \n        .total-highlight .amount \x7b\n            font-size: 32px;\n            font-weight: bold;\n            color: #059669;\n        \x7d\n        \n        .total-highlight .label \x7b\n            color: #6b7280;\n            font-size: 14px;\n        \x7d\n        \n        .section \x7b\n            margin-bottom: 30px;\n        \x7d\n        \n        .section h3 \x7b\n            color: #1e40af;\n            font-size: 18px;\n            margin-bottom: 15px;\n            border-bottom: 2px solid #e5e7eb;\n            padding-bottom: 5px;\n        \x7d\n        \n        .materials-table \x7b\n            width: 100%;\n            border-collapse: collapse;\n            margin-bottom: 20px;\n            box-shadow: 0 1px 3px rgba(0,0,0,0.1);\n        \x7d\n        \n        .materials-table th \x7b\n            background: #1e40af;\n            color: white;\n            padding: 12px;\n            text-align: left;\n            font-weight: 600;\n            font-size: 14px;\n        \x7d\n        \n        .materials-table td \x7b\n            padding: 10px 12px;\n            border-bottom: 1px solid #e5e7eb;\n            font-size: 14px;\n        \x7d\n        \n        .materials-table tr:nth-child(even) \x7b\n            background: #f8fafc;\n        \x7d\n        \n        .materials-table .text-right \x7b\n            text-align: right;\n        \x7d\n        \n        .materials-table .text-center \x7b\n            text-align: center;\n        \x7d\n        \n        .cost-summary \x7b\n            background: #f8fafc;\n            padding: 20px;\n            border-radius: 8px;\n            border-left: 4px solid #2563eb;\n        \x7d\n        \n        .cost-row \x7b\n            display: flex;\n            justify-content: space-between;\n            padding: 8px 0;\n            border-bottom: 1px solid #e5e7eb;\n        \x7d\n        \n        .cost-row:last-child \x7b\n            border-bottom: none;\n            font-weight: bold;\n            font-size: 18px;\n            color: #059669;\n            border-top: 2px solid #059669;\n            padding-top: 12px;\n            margin-top: 8px;\n        \x7d\n        \n        .footer \x7b\n            margin-top: 40px;\n            text-align: center;\n            color: #6b7280;\n            font-size: 12px;\n            border-top: 1px solid #e5e7eb;\n            padding-top: 20px;\n        \x7d\n        \n        .terms \x7b\n            margin-top: 30px;\n            font-size: 12px;\n            color: #6b7280;\n            line-height: 1.5;\n        \x7d\n        \n        .terms h4 \x7b\n            color: #374151;\n            margin-bottom: 10px;\n        \x7d\n    </style>\n</head>\n<body>\n    <div class=\"container\">\n        <div class=\"header\">\n            <h1>CONSTRUCTION MATERIAL QUOTATION</h1>\n            <div class=\"company\">Professional Construction Services</div>\n        </div>\n        \n        <div class=\"project-info\">\n            <div class=\"project-details\">\n                <h2>" ++
    q.projectName ++
    "</h2>\n                <p><strong>Date:</strong> " ++
    q.date ++
    "</p>\n                <p><strong>Materials Count:</strong> " ++
    (toString q.materials.length) ++
    " items</p>\n            </div>\n            <div class=\"total-highlight\">\n                <div class=\"amount\">$" ++
    (env.numToLocaleString q.totalCost) ++
    "</div>\n                <div class=\"label\">Total Project Cost</div>\n            </div>\n        </div>\n        \n        <div class=\"section\">\n            <h3>Material Breakdown</h3>\n            <table class=\"materials-table\">\n                <thead>\n                    <tr>\n                        <th style=\"width: 45%;\">Material Description</th>\n                        <th class=\"text-center\" style=\"width: 12%;\">Qty</th>\n                        <th class=\"text-center\" style=\"width: 12%;\">Unit</th>\n                        <th class=\"text-right\" style=\"width: 15%;\">Unit Price</th>\n                        <th class=\"text-right\" style=\"width: 16%;\">Total</th>\n                    </tr>\n                </thead>\n                <tbody>\n                    " ++
    String.join (q.materials.map fun material =>
      "\n                        <tr>\n                            <td><strong>" ++
    material.name ++
    "</strong></td>\n                            <td class=\"text-center\">" ++
    (env.numToString material.quantity) ++
    "</td>\n                            <td class=\"text-center\">" ++
    material.unit ++
    "</td>\n                            <td class=\"text-right\">$" ++
    (toFixed2 material.unitPrice) ++
    "</td>\n                            <td class=\"text-right\"><strong>$" ++
    (toFixed2 material.totalPrice) ++
    "</strong></td>\n                        </tr>\n                    ") ++
    "\n                </tbody>\n            </table>\n        </div>\n        \n        <div class=\"section\">\n            <h3>Cost Summary</h3>\n            <div class=\"cost-summary\">\n                <div class=\"cost-row\">\n                    <span>Materials Subtotal:</span>\n                    <span>$" ++
    (toFixed2 q.subtotal) ++
    "</span>\n                </div>\n                <div class=\"cost-row\">\n                    <span>Labor Cost (60% of materials):</span>\n                    <span>$" ++
    (toFixed2 q.laborCost) ++
    "</span>\n                </div>\n                <div class=\"cost-row\">\n                    <span>Equipment & Tools (15% of materials):</span>\n                    <span>$" ++
    (toFixed2 q.equipmentCost) ++
    "</span>\n                </div>\n                <div class=\"cost-row\">\n                    <span>Overhead & Profit (20%):</span>\n                    <span>$" ++
    (toFixed2 q.overhead) ++
    "</span>\n                </div>\n                <div class=\"cost-row\">\n                    <span>TOTAL PROJECT COST:</span>\n                    <span>$" ++
    (toFixed2 q.totalCost) ++
    "</span>\n                </div>\n            </div>\n        </div>\n        \n        <div class=\"terms\">\n            <h4>Terms & Conditions:</h4>\n            <p>• This quotation is valid for 30 days from the date of issue.</p>\n            <p>• Prices are subject to change based on material availability and market conditions.</p>\n            <p>• Labor costs may vary based on project complexity and timeline.</p>\n            <p>• Additional costs may apply for permits, inspections, and unforeseen circumstances.</p>\n            <p>• Payment terms: 50% deposit, 50% upon completion.</p>\n        </div>\n        \n        <div class=\"footer\">\n            <p>This quotation was generated using AI-powered construction material analysis.</p>\n            <p>For questions or modifications, please contact our project team.</p>\n            <p>Generated on " ++
    env.dateNowLocaleString ++
    "</p>\n        </div>\n    </div>\n</body>\n</html>\n"

/-- Responses of the export handler. -/
inductive ExportBody
  | pdfFile (bytes : List Nat)
  | htmlFile (content : String)
  | jsonErr (msg : String)
deriving DecidableEq

structure ExportResponse where
  status : Nat
  headers : List (String × String)
  body : ExportBody
deriving DecidableEq

/-- `POST` of `export-quotation/route.ts`.  `quotation` is the parsed
request body (`none` models a missing/falsy `quotation`, answered 400).
`render` stands for the whole Puppeteer pipeline (import, launch, set the
generated HTML as content, print to PDF): `none` means some step of it
threw, which the inner `catch` turns into the HTML fallback download. -/
def exportPOST (quotation : Option QuotationResult)
    (render : String → Option (List Nat)) (env : JsEnv) : ExportResponse :=
  match quotation with
  | none =>
    { status := 400, headers := [("Content-Type", "application/json")],
      body := ExportBody.jsonErr "Invalid quotation data" }
  | some q =>
    match render (generateProfessionalHTML env q) with
    | some pdfBuffer =>
      { status := 200,
        headers := [("Content-Type", "application/pdf"),
          ("Content-Disposition",
            "attachment; filename=\"quotation-" ++ toString env.dateNowMs ++ ".pdf\"")],
        body := ExportBody.pdfFile pdfBuffer }
    | none =>
      { status := 200,
        headers := [("Content-Type", "text/html"),
          ("Content-Disposition",
            "attachment; filename=\"quotation-" ++ toString env.dateNowMs ++ ".html\"")],
        body := ExportBody.htmlFile (generateProfessionalHTML env q) }

/-! ## Auxiliary definitions used by the statements -/

/-- A single pattern attempt with the `name && quantity > 0 && unit` guard:
the per-line result a pattern contributes when it both matches and passes
the guard. -/
def attemptPattern (p : Pat) (cs : List Char) : Option Material :=
  match runPattern p cs with
  | some (nm, q, u) =>
    if nm ≠ [] ∧ 0 < parseFloatQ q ∧ u ≠ [] then
      some { name := ⟨cleanMaterialName nm⟩, quantity := parseFloatQ q,
             unit := standardizeUnit ⟨u⟩, unitPrice := 0, totalPrice := 0 }
    else none
  | none => none

/-- A pattern yields no positive parsed quantity on this line (it fails,
or its quantity capture parses to a non-positive value). -/
def qtyNonpos (p : Pat) (cs : List Char) : Bool :=
  match runPattern p cs with
  | some (_, q, _) => decide (parseFloatQ q ≤ 0)
  | none => true

/-- The per-session part of the single-video invariant. -/
def VideoInv (d : SessionData) : Prop :=
  (d.extList.filter (fun e => mediaType e = "video")).length ≤ 1 ∧
  (d.hasVideo = true →
    d.assetList.length = 1 ∧
    (d.extList.filter (fun e => mediaType e = "video")).length = 1)

/-- The store-wide invariant of claim C6. -/
def SessionInv (st : Sessions) : Prop :=
  ∀ k d, mapGet st k = some d → VideoInv d

/-! ## General lemmas -/

theorem foldl_add_totalPrice (ms : List Material) (a : ℚ) :
    ms.foldl (fun sum m => sum + m.totalPrice) a =
      a + (ms.map Material.totalPrice).sum := by
  induction ms generalizing a with
  | nil => simp
  | cons m t ih => simp [List.foldl_cons, ih, add_assoc]

theorem mapGet_delete (st : Sessions) (s k : String) :
    mapGet (mapDelete st s) k = if k = s then none else mapGet st k := by
  induction st with
  | nil => simp only [mapDelete, mapGet]; split <;> rfl
  | cons kv t ih =>
    obtain ⟨k', v⟩ := kv
    by_cases h1 : k' = s <;> by_cases h2 : k' = k <;> by_cases h3 : k = s <;>
      simp_all [mapDelete, mapGet]

theorem mapGet_set (st : Sessions) (s k : String) (v : SessionData) :
    mapGet (mapSet st s v) k = if k = s then some v else mapGet st k := by
  induction st with
  | nil =>
    by_cases h3 : k = s
    · simp_all [mapSet, mapGet]
    · simp_all [mapSet, mapGet]
      exact fun h => h3 h.symm
  | cons kv t ih =>
    obtain ⟨k', v'⟩ := kv
    by_cases h1 : k' = s <;> by_cases h2 : k' = k <;> by_cases h3 : k = s <;>
      simp_all [mapSet, mapGet]

/-! ## Claim C2: pricing resolution -/

/-- C2: `getMarketPrice` scans the static table in declaration order; the
first keyword that is a case-insensitive substring of the material name
supplies the price when its sub-table has a (nonzero) entry for the unit,
and otherwise the unit-keyed default table decides (`pieces`→10,
`lbs`→2.5, `feet`→3.5, `sq ft`→2.8, `cu ft`→8.5, `cu yd`→85,
`gallons`→35), with flat default 5 for unknown units.  In particular
`getMarketPrice "ready mix concrete" "cu yd" = 120`,
`getMarketPrice "mystery material" "pieces" = 10` and
`getMarketPrice "mystery material" "exotic-unit" = 5`. -/
theorem getMarketPrice_first_match_then_fallbacks :
    (∀ (name unit : String) (kv : String × List (String × ℚ)),
       priceDatabase.find? (fun e => keyMatches name e.1) = some kv →
       getMarketPrice name unit =
         (match lookupKey kv.2 unit with
          | some p => if p = 0 then unitFallback unit else p
          | none => unitFallback unit)) ∧
    (∀ name unit : String,
       priceDatabase.find? (fun e => keyMatches name e.1) = none →
       getMarketPrice name unit = unitFallback unit) ∧
    (unitFallback "pieces" = 10 ∧ unitFallback "lbs" = 2.5 ∧
     unitFallback "feet" = 3.5 ∧ unitFallback "sq ft" = 2.8 ∧
     unitFallback "cu ft" = 8.5 ∧ unitFallback "cu yd" = 85 ∧
     unitFallback "gallons" = 35 ∧ unitFallback "exotic-unit" = 5) ∧
    getMarketPrice "ready mix concrete" "cu yd" = 120 ∧
    getMarketPrice "mystery material" "pieces" = 10 ∧
    getMarketPrice "mystery material" "exotic-unit" = 5 := by
  refine ⟨?_, ?_, ⟨?_, ?_, ?_, ?_, ?_, ?_, ?_, ?_⟩, ?_, ?_, ?_⟩
  · intro name unit kv h
    unfold getMarketPrice
    rw [h]
  · intro name unit h
    unfold getMarketPrice
    rw [h]
  · decide
  · unfold unitFallback
    rw [show lookupKey fallbackPrices "lbs" = some (mkRat 25 10) from rfl]
    norm_num [Rat.mkRat_eq_div]
  · unfold unitFallback
    rw [show lookupKey fallbackPrices "feet" = some (mkRat 35 10) from rfl]
    norm_num [Rat.mkRat_eq_div]
  · unfold unitFallback
    rw [show lookupKey fallbackPrices "sq ft" = some (mkRat 28 10) from rfl]
    norm_num [Rat.mkRat_eq_div]
  · unfold unitFallback
    rw [show lookupKey fallbackPrices "cu ft" = some (mkRat 85 10) from rfl]
    norm_num [Rat.mkRat_eq_div]
  · decide
  · decide
  · decide
  · decide
  · decide
  · decide

/-- Witness for C2: the first-match branch at `"ready mix concrete"`
(matched by the earlier-declared keyword `"concrete"`) and the
no-match branch at `"mystery material"`. -/
theorem getMarketPrice_first_match_witness :
    getMarketPrice "ready mix concrete" "cu yd" =
      (match lookupKey [("cu yd", (120 : ℚ)), ("cu ft", mkRat 45 10)] "cu yd" with
       | some p => if p = 0 then unitFallback "cu yd" else p
       | none => unitFallback "cu yd") ∧
    getMarketPrice "mystery material" "exotic-unit" = unitFallback "exotic-unit" :=
  ⟨getMarketPrice_first_match_then_fallbacks.1 "ready mix concrete" "cu yd"
      ("concrete", [("cu yd", 120), ("cu ft", mkRat 45 10)]) (by decide),
   getMarketPrice_first_match_then_fallbacks.2.1 "mystery material" "exotic-unit"
      (by decide)⟩

/-! ## Claim C3: quotation arithmetic -/

/-- C3: `generateQuotation` computes `subtotal` as the sum of the
materials' `totalPrice` fields, `laborCost = 0.6·subtotal`,
`equipmentCost = 0.15·subtotal`,
`overhead = 0.2·(subtotal+laborCost+equipmentCost)` and
`totalCost` as the sum of the four; a `totalPrice` sum of 1000 gives
600 / 150 / 350 / 2100, and the empty material list gives all-zero costs
(no error: the function is total). -/
theorem generateQuotation_arithmetic :
    (∀ (ms : List Material) (vn d : String),
       (generateQuotation ms vn d).subtotal = (ms.map Material.totalPrice).sum ∧
       (generateQuotation ms vn d).laborCost = 0.6 * (generateQuotation ms vn d).subtotal ∧
       (generateQuotation ms vn d).equipmentCost = 0.15 * (generateQuotation ms vn d).subtotal ∧
       (generateQuotation ms vn d).overhead =
         0.2 * ((generateQuotation ms vn d).subtotal + (generateQuotation ms vn d).laborCost +
           (generateQuotation ms vn d).equipmentCost) ∧
       (generateQuotation ms vn d).totalCost =
         (generateQuotation ms vn d).subtotal + (generateQuotation ms vn d).laborCost +
           (generateQuotation ms vn d).equipmentCost + (generateQuotation ms vn d).overhead) ∧
    ((generateQuotation [⟨"Concrete", 10, "cu yd", 100, 1000⟩] "site.mp4" "1/1/2025").subtotal = 1000 ∧
     (generateQuotation [⟨"Concrete", 10, "cu yd", 100, 1000⟩] "site.mp4" "1/1/2025").laborCost = 600 ∧
     (generateQuotation [⟨"Concrete", 10, "cu yd", 100, 1000⟩] "site.mp4" "1/1/2025").equipmentCost = 150 ∧
     (generateQuotation [⟨"Concrete", 10, "cu yd", 100, 1000⟩] "site.mp4" "1/1/2025").overhead = 350 ∧
     (generateQuotation [⟨"Concrete", 10, "cu yd", 100, 1000⟩] "site.mp4" "1/1/2025").totalCost = 2100) ∧
    (∀ vn d : String,
       (generateQuotation [] vn d).subtotal = 0 ∧
       (generateQuotation [] vn d).laborCost = 0 ∧
       (generateQuotation [] vn d).equipmentCost = 0 ∧
       (generateQuotation [] vn d).overhead = 0 ∧
       (generateQuotation [] vn d).totalCost = 0) := by
  refine ⟨?_, ?_, ?_⟩
  · intro ms vn d
    refine ⟨?_, ?_, ?_, ?_, ?_⟩ <;>
      simp [generateQuotation, foldl_add_totalPrice, Rat.mkRat_eq_div] <;>
      ring
  · refine ⟨?_, ?_, ?_, ?_, ?_⟩ <;>
      norm_num [generateQuotation, Rat.mkRat_eq_div]
  · intro vn d
    refine ⟨?_, ?_, ?_, ?_, ?_⟩ <;>
      norm_num [generateQuotation, Rat.mkRat_eq_div]

/-! ## Claim C8: the 50-material cap -/

/-- C8: the extractor's output never exceeds 50 materials, and equals the
order-preserving first-50 truncation of the full per-line match list. -/
theorem extractMaterialsFromText_capped (text : String) :
    (extractMaterialsFromText text).length ≤ 50 ∧
    extractMaterialsFromText text = (processedLines text).take 50 := by
  refine ⟨?_, rfl⟩
  simp only [extractMaterialsFromText]
  exact (List.length_take 50 (processedLines text)).le.trans (min_le_left _ _)

/-! ## Claim C4: first-match-wins is really first-*passing*-match-wins -/

theorem tryPatterns_cons (p : Pat) (ps : List Pat) (cs : List Char) :
    tryPatterns (p :: ps) cs =
      (match attemptPattern p cs with
       | some m => some m
       | none => tryPatterns ps cs) := by
  cases h : runPattern p cs with
  | none => simp only [tryPatterns, attemptPattern, h]
  | some r =>
    obtain ⟨nm, q, u⟩ := r
    by_cases hg : nm ≠ [] ∧ 0 < parseFloatQ q ∧ u ≠ []
    · simp only [tryPatterns, attemptPattern, h, if_pos hg]
    · simp only [tryPatterns, attemptPattern, h, if_neg hg]

/-- C4 counterexample: on the line
`"Bolts: 0 found, buy 12 pieces of steel"` the first pattern *does* match
(capturing quantity `0`), yet the line's result is not decided by it: the
loop goes on to the second pattern, which produces the `Steel` material.
Had no later pattern been attempted after the first match, the line would
have produced nothing (`tryPatterns [Pat.p1] … = none`). -/
theorem firstMatch_decides_cex :
    (runPattern Pat.p1 "Bolts: 0 found, buy 12 pieces of steel".data).isSome = true ∧
    tryPatterns [Pat.p1] "Bolts: 0 found, buy 12 pieces of steel".data = none ∧
    tryPatterns patterns "Bolts: 0 found, buy 12 pieces of steel".data =
      some { name := "Steel", quantity := 12, unit := "pieces",
             unitPrice := 0, totalPrice := 0 } := by
  refine ⟨by decide, by decide, by decide⟩

/-- C4 (amended): the three patterns are attempted in their fixed order,
and the first pattern that matches *and passes the positivity guard*
decides the line's result; a pattern that matches with a non-positive
quantity does not stop the later patterns from being attempted. -/
theorem firstPassingMatch_decides (cs : List Char) :
    tryPatterns patterns cs =
      (match attemptPattern Pat.p1 cs with
       | some m => some m
       | none =>
         match attemptPattern Pat.p2 cs with
         | some m => some m
         | none => attemptPattern Pat.p3 cs) := by
  show tryPatterns (Pat.p1 :: Pat.p2 :: Pat.p3 :: []) cs = _
  rw [tryPatterns_cons, tryPatterns_cons, tryPatterns_cons]
  cases attemptPattern Pat.p1 cs with
  | some m => rfl
  | none =>
    cases attemptPattern Pat.p2 cs with
    | some m => rfl
    | none =>
      cases attemptPattern Pat.p3 cs with
      | some m => rfl
      | none => rfl

/-! ## Claim C7: lines with non-positive or missing quantity are dropped -/

theorem tryPatterns_quantity_pos (ps : List Pat) (cs : List Char)
    (m : Material) (h : tryPatterns ps cs = some m) : 0 < m.quantity := by
  induction ps with
  | nil => simp [tryPatterns] at h
  | cons p t ih =>
    cases hr : runPattern p cs with
    | none =>
      simp only [tryPatterns, hr] at h
      exact ih h
    | some r =>
      obtain ⟨nm, q, u⟩ := r
      by_cases hg : nm ≠ [] ∧ 0 < parseFloatQ q ∧ u ≠ []
      · simp only [tryPatterns, hr, if_pos hg] at h
        cases h
        exact hg.2.1
      · simp only [tryPatterns, hr, if_neg hg] at h
        exact ih h

theorem tryPatterns_none_of_nonpos (ps : List Pat) (cs : List Char)
    (h : ∀ p ∈ ps, qtyNonpos p cs = true) : tryPatterns ps cs = none := by
  induction ps with
  | nil => rfl
  | cons p t ih =>
    have hp := h p (List.mem_cons_self p t)
    cases hr : runPattern p cs with
    | none =>
      simp only [tryPatterns, hr]
      exact ih fun p hp' => h p (List.mem_cons_of_mem _ hp')
    | some r =>
      obtain ⟨nm, q, u⟩ := r
      simp only [qtyNonpos, hr] at hp
      have hle : parseFloatQ q ≤ 0 := of_decide_eq_true hp
      have hg : ¬ (nm ≠ [] ∧ 0 < parseFloatQ q ∧ u ≠ []) := by
        rintro ⟨-, hpos, -⟩
        exact absurd hpos (not_lt.mpr hle)
      simp only [tryPatterns, hr, if_neg hg]
      exact ih fun p hp' => h p (List.mem_cons_of_mem _ hp')

/-- C7: extraction is a total function (the embedding involves no failing
operation, mirroring the absence of throwing operations in the source
loop), every emitted material has a strictly positive quantity, and a line
on which every pattern either fails or parses a non-positive quantity
produces no material at all. -/
theorem nonpositive_quantity_lines_skipped :
    (∀ (text : String) (m : Material),
       m ∈ extractMaterialsFromText text → 0 < m.quantity) ∧
    (∀ cs : List Char, (∀ p ∈ patterns, qtyNonpos p cs = true) →
       tryPatterns patterns cs = none) := by
  constructor
  · intro text m hm
    have hm' : m ∈ processedLines text :=
      List.mem_of_mem_take (by simpa [extractMaterialsFromText] using hm)
    obtain ⟨l, -, hf⟩ := List.mem_filterMap.mp hm'
    by_cases hlen : (jsTrim l).length < 5
    · simp [hlen] at hf
    · simp only [if_neg hlen] at hf
      exact tryPatterns_quantity_pos _ _ _ hf
  · intro cs h
    exact tryPatterns_none_of_nonpos _ _ h

/-- Witness for C7: the line `"Concrete: 0 bags"` (pattern 1 matches with
quantity `0`, the others fail) yields no material, and the material
extracted from `"9 pieces of lumber"` has positive quantity. -/
theorem nonpositive_quantity_witness :
    tryPatterns patterns "Concrete: 0 bags".data = none ∧
    (0 : ℚ) < (Material.mk "Lumber" 9 "pieces" 0 0).quantity :=
  ⟨nonpositive_quantity_lines_skipped.2 "Concrete: 0 bags".data (by decide),
   nonpositive_quantity_lines_skipped.1 "9 pieces of lumber"
     (Material.mk "Lumber" 9 "pieces" 0 0) (by decide)⟩

/-! ## Claim C5: lookups after deletion -/

/-- A concrete session record for the C5 scenario. -/
def demoSession : SessionData :=
  { assetList := ["dummy_asset_1"], extList := ["mp4"],
    mediaContent := "<video src=\"data:video/mp4;asset_id,dummy_asset_1\" />",
    uploadedAt := 1, hasVideo := true }

/-- C5 counterexample: create a session, delete it through the cleanup
action (which answers 200), and chat with the deleted id.  The chat
request is answered with HTTP 500 — the non-null assertion
`sessions.get(sessionId)!` dereferences `undefined` and the resulting
`TypeError` is converted by the catch-all into an internal server error —
not with a NotFound-style response, contradicting the claim that *every*
subsequent lookup is answered NotFound rather than an internal error. -/
theorem lookup_after_delete_cex :
    (cleanupPOST (mapSet [] "session_1_abc" demoSession) (some "session_1_abc")).1.status
        = 200 ∧
    ((chatPOST (cleanupPOST (mapSet [] "session_1_abc" demoSession)
        (some "session_1_abc")).2 (some "session_1_abc") (some "Analyze this")).1.status
        = 500) ∧
    ¬ ((chatPOST (cleanupPOST (mapSet [] "session_1_abc" demoSession)
        (some "session_1_abc")).2 (some "session_1_abc") (some "Analyze this")).1.status
        = 404) := by
  refine ⟨by decide, by decide, by decide⟩

/-- C5 (amended): once a session id has been deleted, a lookup through the
*cleanup* action is answered 404 `Session not found`, while a *chat*
request supplying the deleted id is answered with a 500 error response
(the caught `TypeError`); in both cases an error response is produced
rather than a crash, and the store is left unchanged. -/
theorem lookup_after_delete (st : Sessions) (s q : String)
    (hs : s ≠ "") (hq : q ≠ "") :
    mapGet (mapDelete st s) s = none ∧
    cleanupPOST (mapDelete st s) (some s) =
      ({ status := 404, body := PmBody.errMsg "Session not found" }, mapDelete st s) ∧
    chatPOST (mapDelete st s) (some s) (some q) =
      ({ status := 500,
         body := PmBody.errMsg
           "TypeError: Cannot read properties of undefined (reading 'assetList')" },
       mapDelete st s) := by
  have hget : mapGet (mapDelete st s) s = none := by
    rw [mapGet_delete, if_pos rfl]
  refine ⟨hget, ?_, ?_⟩
  · have hhas : mapHas (mapDelete st s) s = false := by
      simp [mapHas, hget]
    simp [cleanupPOST, hhas]
  · simp [chatPOST, hs, hq, hget]

/-- Witness for C5 (amended) at a concrete deleted id. -/
theorem lookup_after_delete_witness :
    mapGet (mapDelete [("session_1_abc", demoSession)] "session_1_abc") "session_1_abc"
        = none ∧
    cleanupPOST (mapDelete [("session_1_abc", demoSession)] "session_1_abc")
        (some "session_1_abc") =
      ({ status := 404, body := PmBody.errMsg "Session not found" },
       mapDelete [("session_1_abc", demoSession)] "session_1_abc") ∧
    chatPOST (mapDelete [("session_1_abc", demoSession)] "session_1_abc")
        (some "session_1_abc") (some "hello") =
      ({ status := 500,
         body := PmBody.errMsg
           "TypeError: Cannot read properties of undefined (reading 'assetList')" },
       mapDelete [("session_1_abc", demoSession)] "session_1_abc") :=
  lookup_after_delete [("session_1_abc", demoSession)] "session_1_abc" "hello"
    (by decide) (by decide)

/-! ## Claim C9: PDF failure falls back to the same HTML document -/

/-- C9: when the headless-browser pipeline fails on a valid quotation, the
export endpoint still succeeds (status 200), returning exactly the HTML
document produced by `generateProfessionalHTML` with
`Content-Type: text/html` and a `Content-Disposition: attachment` header;
the renderer failure is never propagated as an error response. -/
theorem pdf_failure_falls_back_to_html (env : JsEnv) (q : QuotationResult)
    (render : String → Option (List Nat))
    (hfail : render (generateProfessionalHTML env q) = none) :
    exportPOST (some q) render env =
      { status := 200,
        headers := [("Content-Type", "text/html"),
          ("Content-Disposition",
            "attachment; filename=\"quotation-" ++ toString env.dateNowMs ++ ".html\"")],
        body := ExportBody.htmlFile (generateProfessionalHTML env q) } := by
  simp [exportPOST, hfail]

/-- Witness for C9 with an always-failing renderer on a concrete
quotation. -/
theorem pdf_failure_falls_back_witness :
    exportPOST (some (generateQuotation [] "wall.mp4" "1/1/2025"))
        (fun _ => none)
        { numToLocaleString := fun _ => "0", numToString := fun _ => "0",
          dateNowLocaleString := "1/1/2025, 00:00:00", dateNowMs := 1700000000000 } =
      { status := 200,
        headers := [("Content-Type", "text/html"),
          ("Content-Disposition",
            "attachment; filename=\"quotation-1700000000000.html\"")],
        body := ExportBody.htmlFile (generateProfessionalHTML
          { numToLocaleString := fun _ => "0", numToString := fun _ => "0",
            dateNowLocaleString := "1/1/2025, 00:00:00", dateNowMs := 1700000000000 }
          (generateQuotation [] "wall.mp4" "1/1/2025")) } :=
  pdf_failure_falls_back_to_html _ _ _ rfl

/-! ## Claim C10: no partially-validated session becomes observable -/

theorem buildSession_ok_spec (genAsset : Nat → String) :
    ∀ (files : List UploadFile) (i : Nat) (al el : List String)
      (mc : String) (hv : Bool) (al' el' : List String) (mc' : String) (hv' : Bool),
      buildSession genAsset files i al el mc hv = Except.ok (al', el', mc', hv') →
      al'.length = al.length + files.length ∧
      el' = el ++ files.map (fun f => getExtension f.name) ∧
      hv' = (hv || files.any (fun f => mediaType (getExtension f.name) = "video")) ∧
      (∀ f ∈ files, isSupportedExt (getExtension f.name) = true) := by
  intro files
  induction files with
  | nil =>
    intro i al el mc hv al' el' mc' hv' h
    simp only [buildSession, Except.ok.injEq, Prod.mk.injEq] at h
    obtain ⟨h1, h2, h3, h4⟩ := h
    simp [← h1, ← h2, ← h3, ← h4]
  | cons f fs ih =>
    intro i al el mc hv al' el' mc' hv' h
    simp only [buildSession] at h
    by_cases hsup : isSupportedExt (getExtension f.name) = true
    · rw [if_pos hsup] at h
      obtain ⟨hl, he, hh, hva⟩ := ih _ _ _ _ _ _ _ _ _ h
      refine ⟨?_, ?_, ?_, ?_⟩
      · simp [hl]; omega
      · simp [he]
      · simp [hh, Bool.or_assoc]
      · intro g hg
        rcases List.mem_cons.mp hg with rfl | hg'
        · exact hsup
        · exact hva g hg'
    · rw [if_neg (by simpa using hsup)] at h
      cases h

/-- C10: an upload request answered with an error (no files, an
unsupported extension, or a video mixed with other files) leaves the
session map unchanged; conversely, whenever the map changes, the request
was answered 200, every file had passed extension validation, and the
single-video check held, so no partially-validated session is ever
observable. -/
theorem failed_upload_leaves_sessions_unchanged (st : Sessions)
    (files : List UploadFile) (genAsset : Nat → String) (newSid : String)
    (nowMs : Nat) :
    ((uploadPOST st files genAsset newSid nowMs).1.status ≠ 200 →
       (uploadPOST st files genAsset newSid nowMs).2 = st) ∧
    ((uploadPOST st files genAsset newSid nowMs).2 ≠ st →
       (uploadPOST st files genAsset newSid nowMs).1.status = 200 ∧
       (∀ f ∈ files, isSupportedExt (getExtension f.name) = true) ∧
       ((files.any (fun f => mediaType (getExtension f.name) = "video")) = true →
          files.length = 1)) := by
  by_cases hempty : files.isEmpty
  · constructor
    · intro _
      simp [uploadPOST, hempty]
    · intro hne
      exact absurd (by simp [uploadPOST, hempty]) hne
  · cases hb : buildSession genAsset files 0 [] [] "" false with
    | error msg =>
      constructor
      · intro _
        simp [uploadPOST, hempty, hb]
      · intro hne
        exact absurd (by simp [uploadPOST, hempty, hb]) hne
    | ok r =>
      obtain ⟨al, el, mc, hv⟩ := r
      obtain ⟨-, -, hh, hva⟩ :=
        buildSession_ok_spec genAsset files 0 [] [] "" false al el mc hv hb
      by_cases hvc : hv ∧ files.length ≠ 1
      · constructor
        · intro _
          simp [uploadPOST, hempty, hb, hvc]
        · intro hne
          exact absurd (by simp [uploadPOST, hempty, hb, hvc]) hne
      · constructor
        · intro hst
          exact absurd (by simp [uploadPOST, hempty, hb, hvc]) hst
        · intro _
          refine ⟨by simp [uploadPOST, hempty, hb, hvc], hva, ?_⟩
          intro hany
          by_contra hlen
          exact hvc ⟨by simp [hh, hany], hlen⟩

/-- Witness for C10: a two-file upload whose second file has an
unsupported extension is answered 500 and leaves a nonempty store
untouched. -/
theorem failed_upload_unchanged_witness :
    (uploadPOST [("s0", demoSession)]
        [UploadFile.mk "a.png", UploadFile.mk "b.exe"]
        (fun _ => "asset") "s1" 0).2 = [("s0", demoSession)] :=
  (failed_upload_leaves_sessions_unchanged [("s0", demoSession)]
      [UploadFile.mk "a.png", UploadFile.mk "b.exe"]
      (fun _ => "asset") "s1" 0).1 (by decide)

/-! ## Claim C6: at most one video asset per session -/

theorem sessionStep_preserves_inv {st st' : Sessions}
    (hstep : SessionStep st st') (hinv : SessionInv st) : SessionInv st' := by
  cases hstep with
  | upload files genAsset newSid nowMs hFresh =>
    by_cases hempty : files.isEmpty
    · simpa [uploadPOST, hempty] using hinv
    · cases hb : buildSession genAsset files 0 [] [] "" false with
      | error msg => simpa [uploadPOST, hempty, hb] using hinv
      | ok r =>
        obtain ⟨al, el, mc, hv⟩ := r
        obtain ⟨hl, he, hh, -⟩ :=
          buildSession_ok_spec genAsset files 0 [] [] "" false al el mc hv hb
        by_cases hvc : hv ∧ files.length ≠ 1
        · simpa [uploadPOST, hempty, hb, hvc] using hinv
        · intro k d hk
          rw [show (uploadPOST st files genAsset newSid nowMs).2 =
                mapSet st newSid
                  { assetList := al, extList := el, mediaContent := mc,
                    uploadedAt := nowMs, hasVideo := hv } by
                simp [uploadPOST, hempty, hb, hvc]] at hk
          rw [mapGet_set] at hk
          by_cases hks : k = newSid
          · rw [if_pos hks] at hk
            cases hk
            by_cases hvv : hv = true
            · have hlen : files.length = 1 := by
                by_contra hne
                exact hvc ⟨hvv, hne⟩
              obtain ⟨f, hfnil⟩ : ∃ f, files = [f] :=
                List.length_eq_one.mp hlen
              constructor
              · show (el.filter _).length ≤ 1
                calc (el.filter (fun e => mediaType e = "video")).length
                    ≤ el.length := List.length_filter_le _ _
                  _ = 1 := by simp [he, hfnil]
              · intro _
                refine ⟨by simp [hl, hlen], ?_⟩
                have hany := hh
                rw [hvv, hfnil] at hany
                simp only [List.any_cons, List.any_nil, Bool.false_or,
                  Bool.or_false] at hany
                have hfv : mediaType (getExtension f.name) = "video" :=
                  of_decide_eq_true hany.symm
                simp [he, hfnil, List.filter_cons, hfv]
            · have hvf : hv = false := by
                cases hv
                · rfl
                · exact absurd rfl hvv
              constructor
              · show (el.filter _).length ≤ 1
                have hnone : ∀ e ∈ el, ¬ (mediaType e = "video") := by
                  intro e he'
                  rw [he] at he'
                  simp only [List.nil_append, List.mem_map] at he'
                  obtain ⟨f, hf, rfl⟩ := he'
                  intro hcontra
                  have : files.any (fun f => mediaType (getExtension f.name) = "video") = true :=
                    List.any_eq_true.mpr ⟨f, hf, by simp [hcontra]⟩
                  rw [hvf] at hh
                  simp [this] at hh
                have : el.filter (fun e => mediaType e = "video") = [] :=
                  List.filter_eq_nil_iff.mpr (by
                    intro e he'
                    simpa using hnone e he')
                simp [this]
              · intro hcontra
                rw [hvf] at hcontra
                cases hcontra
          · rw [if_neg hks] at hk
            exact hinv k d hk
  | chat sessionId query =>
    intro k d hk
    refine hinv k d ?_
    rcases sessionId with _ | sid
    · simpa [chatPOST] using hk
    · by_cases hsid : sid = ""
      · simpa [chatPOST, hsid] using hk
      · rcases query with _ | q
        · simpa [chatPOST, hsid] using hk
        · by_cases hq : q = ""
          · simpa [chatPOST, hsid, hq] using hk
          · cases hget : mapGet st sid with
            | none => simpa [chatPOST, hsid, hq, hget] using hk
            | some d' => simpa [chatPOST, hsid, hq, hget] using hk
  | cleanup sessionId =>
    intro k d hk
    rcases sessionId with _ | sid
    · exact hinv k d (by simpa [cleanupPOST] using hk)
    · by_cases hc : sid ≠ "" ∧ mapHas st sid
      · rw [show (cleanupPOST st (some sid)).2 = mapDelete st sid by
            simp [cleanupPOST, hc]] at hk
        rw [mapGet_delete] at hk
        by_cases hks : k = sid
        · rw [if_pos hks] at hk
          cases hk
        · rw [if_neg hks] at hk
          exact hinv k d hk
      · exact hinv k d (by simpa [cleanupPOST, hc] using hk)

theorem chatPOST_state (st : Sessions) (sessionId query : Option String) :
    (chatPOST st sessionId query).2 = st := by
  rcases sessionId with _ | sid
  · rfl
  · by_cases hsid : sid = ""
    · simp [chatPOST, hsid]
    · rcases query with _ | q
      · simp [chatPOST, hsid]
      · by_cases hq : q = ""
        · simp [chatPOST, hsid, hq]
        · cases hget : mapGet st sid with
          | none => simp [chatPOST, hsid, hq, hget]
          | some d => simp [chatPOST, hsid, hq, hget]

/-- C6: in every reachable state of the session store each stored session
satisfies the single-video invariant (at most one video-typed asset, and a
`hasVideo` session holds exactly one asset); an upload mixing a video with
any other file is rejected with an error and creates no session; and no
transition ever modifies an existing session — it is either preserved
verbatim or deleted. -/
theorem single_video_per_session :
    (∀ st, SessionReachable st → SessionInv st) ∧
    (∀ (st : Sessions) (files : List UploadFile) (genAsset : Nat → String)
       (newSid : String) (nowMs : Nat),
       files.any (fun f => mediaType (getExtension f.name) = "video") = true →
       files.length ≠ 1 →
       (uploadPOST st files genAsset newSid nowMs).1.status ≠ 200 ∧
       (uploadPOST st files genAsset newSid nowMs).2 = st) ∧
    (∀ st st', SessionStep st st' → ∀ k d, mapGet st k = some d →
       mapGet st' k = some d ∨ mapGet st' k = none) := by
  refine ⟨?_, ?_, ?_⟩
  · intro st hreach
    induction hreach with
    | init => intro k d hk; cases hk
    | step h hs ih => exact sessionStep_preserves_inv hs ih
  · intro st files genAsset newSid nowMs hany hlen
    have hempty : ¬ files.isEmpty := by
      obtain ⟨f, hf, -⟩ := List.any_eq_true.mp hany
      cases files
      · cases hf
      · simp
    cases hb : buildSession genAsset files 0 [] [] "" false with
    | error msg => constructor <;> simp [uploadPOST, hempty, hb]
    | ok r =>
      obtain ⟨al, el, mc, hv⟩ := r
      obtain ⟨-, -, hh, -⟩ :=
        buildSession_ok_spec genAsset files 0 [] [] "" false al el mc hv hb
      have hvc : hv = true ∧ files.length ≠ 1 := ⟨by simp [hh, hany], hlen⟩
      constructor <;> simp [uploadPOST, hempty, hb, hvc]
  · intro st st' hstep k d hk
    cases hstep with
    | upload files genAsset newSid nowMs hFresh =>
      by_cases hempty : files.isEmpty
      · left; simpa [uploadPOST, hempty] using hk
      · cases hb : buildSession genAsset files 0 [] [] "" false with
        | error msg => left; simpa [uploadPOST, hempty, hb] using hk
        | ok r =>
          obtain ⟨al, el, mc, hv⟩ := r
          by_cases hvc : hv ∧ files.length ≠ 1
          · left; simpa [uploadPOST, hempty, hb, hvc] using hk
          · left
            rw [show (uploadPOST st files genAsset newSid nowMs).2 =
                  mapSet st newSid
                    { assetList := al, extList := el, mediaContent := mc,
                      uploadedAt := nowMs, hasVideo := hv } by
                  simp [uploadPOST, hempty, hb, hvc]]
            rw [mapGet_set]
            have hks : ¬ k = newSid := by
              intro heq
              rw [heq] at hk
              rw [show mapGet st newSid = none by
                    cases hmg : mapGet st newSid
                    · rfl
                    · rw [mapHas, hmg] at hFresh; cases hFresh] at hk
              cases hk
            rw [if_neg hks]
            exact hk
    | chat sessionId query =>
      left
      rw [chatPOST_state]
      exact hk
    | cleanup sessionId =>
      rcases sessionId with _ | sid
      · left; simpa [cleanupPOST] using hk
      · by_cases hc : sid ≠ "" ∧ mapHas st sid
        · rw [show (cleanupPOST st (some sid)).2 = mapDelete st sid by
              simp [cleanupPOST, hc]]
          rw [mapGet_delete]
          by_cases hks : k = sid
          · right; rw [if_pos hks]
          · left; rw [if_neg hks]; exact hk
        · left; simpa [cleanupPOST, hc] using hk

/-- Witness for C6: the state reached by uploading the single video file
`a.mp4` into the empty store satisfies the invariant at its one session;
the mixed upload `[a.mp4, b.png]` is rejected leaving the store empty;
and a cleanup step only deletes. -/
theorem single_video_witness :
    VideoInv { assetList := ["asset0"], extList := ["mp4"],
               mediaContent := "<video src=\"data:video/mp4;asset_id,asset0\" />",
               uploadedAt := 7, hasVideo := true } ∧
    ((uploadPOST [] [UploadFile.mk "a.mp4", UploadFile.mk "b.png"]
        (fun i => "asset" ++ toString i) "s1" 7).1.status ≠ 200 ∧
     (uploadPOST [] [UploadFile.mk "a.mp4", UploadFile.mk "b.png"]
        (fun i => "asset" ++ toString i) "s1" 7).2 = []) := by
  constructor
  · have hreach : SessionReachable
        (uploadPOST [] [UploadFile.mk "a.mp4"]
          (fun i => "asset" ++ toString i) "s1" 7).2 :=
      SessionReachable.step SessionReachable.init
        (SessionStep.upload [] [UploadFile.mk "a.mp4"]
          (fun i => "asset" ++ toString i) "s1" 7 rfl)
    have hst : (uploadPOST [] [UploadFile.mk "a.mp4"]
        (fun i => "asset" ++ toString i) "s1" 7).2 =
        [("s1", { assetList := ["asset0"], extList := ["mp4"],
                  mediaContent := "<video src=\"data:video/mp4;asset_id,asset0\" />",
                  uploadedAt := 7, hasVideo := true })] := by decide
    exact single_video_per_session.1 _ hreach "s1" _ (by rw [hst]; decide)
  · exact single_video_per_session.2.1 [] _ _ "s1" 7 (by decide) (by decide)

/-! ## Lemmas about the character classes and scanning primitives -/

theorem notWs_of_toNat_bounds (c : Char) (h48 : 48 ≤ c.toNat)
    (h122 : c.toNat ≤ 122) : isJsWs c = false := by
  cases hb : isJsWs c with
  | false => rfl
  | true =>
    exfalso
    simp only [isJsWs, Bool.or_eq_true, Bool.and_eq_true, decide_eq_true_eq] at hb
    rcases hb with
      ((((((((((((((h | h) | h) | h) | h) | h) | h) | h) | h) | h) | h) | h) | h) | h) | h) <;>
      first
        | (subst h; revert h48 h122; decide)
        | omega

theorem digitCh_not_ws (c : Char) (h : isDigitCh c = true) : isJsWs c = false := by
  have hn : 48 ≤ c.toNat ∧ c.toNat ≤ 57 := by
    simpa [isDigitCh, Bool.and_eq_true, decide_eq_true_eq] using h
  exact notWs_of_toNat_bounds c hn.1 (by omega)

theorem wordCh_not_ws (c : Char) (h : isWordCh c = true) : isJsWs c = false := by
  have hn : 48 ≤ c.toNat ∧ c.toNat ≤ 122 := by
    rcases (by simpa [isWordCh, Bool.or_eq_true, Bool.and_eq_true,
        decide_eq_true_eq, isDigitCh] using h :
        (((65 ≤ c.toNat ∧ c.toNat ≤ 90) ∨ (97 ≤ c.toNat ∧ c.toNat ≤ 122)) ∨
        (48 ≤ c.toNat ∧ c.toNat ≤ 57)) ∨ c = '_') with
      ((h1 | h2) | h3) | h4
    · omega
    · omega
    · omega
    · subst h4; decide
  exact notWs_of_toNat_bounds c hn.1 hn.2

theorem dropWhile_head_false (p : Char → Bool) (l : List Char)
    (h : ∀ c, l.head? = some c → p c = false) : l.dropWhile p = l := by
  cases l with
  | nil => rfl
  | cons c t => rw [List.dropWhile_cons_of_neg (by simp [h c rfl])]

theorem takeWhile_all_append (p : Char → Bool) (l r : List Char)
    (hl : ∀ c ∈ l, p c = true) (hr : ∀ c, r.head? = some c → p c = false) :
    (l ++ r).takeWhile p = l ∧ (l ++ r).dropWhile p = r := by
  induction l with
  | nil =>
    simp only [List.nil_append]
    constructor
    · cases r with
      | nil => rfl
      | cons c t => rw [List.takeWhile_cons_of_neg (by simp [hr c rfl])]
    · exact dropWhile_head_false p r hr
  | cons c t ih =>
    have hc : p c = true := hl c (List.mem_cons_self c t)
    obtain ⟨ih1, ih2⟩ := ih (fun c' hc' => hl c' (List.mem_cons_of_mem c hc'))
    constructor
    · rw [List.cons_append, List.takeWhile_cons_of_pos hc, ih1]
    · rw [List.cons_append, List.dropWhile_cons_of_pos hc, ih2]

theorem jsTrim_id (l : List Char)
    (h1 : ∀ c, l.head? = some c → isJsWs c = false)
    (h2 : ∀ c, l.reverse.head? = some c → isJsWs c = false) :
    jsTrim l = l := by
  unfold jsTrim dropEndWhile
  rw [dropWhile_head_false _ _ h1, dropWhile_head_false _ _ h2,
    List.reverse_reverse]

theorem splitNl_no_nl (l : List Char) (h : '\n' ∉ l) : splitNl l = [l] := by
  induction l with
  | nil => rfl
  | cons c t ih =>
    have hc : ¬ c = '\n' := fun hc => h (hc ▸ List.mem_cons_self c t)
    rw [splitNl, if_neg hc, ih (fun ht => h (List.mem_cons_of_mem c ht))]

/-! ## Claim C1: well-formed `name: quantity unit` lines -/

theorem p1Tail_shape (q u1 u2 : List Char)
    (hq : q ≠ []) (hqd : ∀ c ∈ q, isDigitCh c = true)
    (hu1 : u1 ≠ []) (hu1w : ∀ c ∈ u1, isWordCh c = true) :
    p1Tail (' ' :: (q ++ ' ' :: (u1 ++ ' ' :: u2))) = some (q, u1) := by
  obtain ⟨qc, qt, rfl⟩ : ∃ c t, q = c :: t := by
    cases q with
    | nil => exact absurd rfl hq
    | cons c t => exact ⟨c, t, rfl⟩
  obtain ⟨uc, ut, rfl⟩ : ∃ c t, u1 = c :: t := by
    cases u1 with
    | nil => exact absurd rfl hu1
    | cons c t => exact ⟨c, t, rfl⟩
  unfold p1Tail
  have hdw : ((' ' :: ((qc :: qt) ++ ' ' :: ((uc :: ut) ++ ' ' :: u2))).dropWhile isJsWs)
      = (qc :: qt) ++ ' ' :: ((uc :: ut) ++ ' ' :: u2) := by
    rw [List.dropWhile_cons_of_pos (by decide)]
    exact dropWhile_head_false _ _ (fun c hc => by
      cases hc
      exact digitCh_not_ws qc (hqd qc (List.mem_cons_self qc qt)))
  rw [hdw]
  obtain ⟨htw, hdw2⟩ := takeWhile_all_append isDigitCh (qc :: qt)
    (' ' :: ((uc :: ut) ++ ' ' :: u2)) hqd (fun c hc => by cases hc; decide)
  unfold matchNumber
  simp only [htw, hdw2]
  rw [if_neg (by simp)]
  have hww : wsWord (' ' :: ((uc :: ut) ++ ' ' :: u2)) = some (uc :: ut) := by
    unfold wsWord
    rw [List.dropWhile_cons_of_pos (by decide),
      dropWhile_head_false _ _ (fun c hc => by
        cases hc
        exact wordCh_not_ws uc (hu1w uc (List.mem_cons_self uc ut)))]
    obtain ⟨htw2, -⟩ := takeWhile_all_append isWordCh (uc :: ut) (' ' :: u2)
      hu1w (fun c hc => by cases hc; decide)
    rw [htw2]
    simp
  simp only [hww]
  simp

theorem p1AtStart_complete (n : List Char) (acc tail q u : List Char)
    (hn : n ≠ []) (hname : ∀ c ∈ n, ¬ c = ':' ∧ isLineTerm c = false)
    (htail : p1Tail tail = some (q, u)) :
    p1AtStart acc (n ++ ':' :: tail) = some (acc.reverse ++ n, q, u) := by
  induction n generalizing acc with
  | nil => exact absurd rfl hn
  | cons c t ih =>
    have hc := hname c (List.mem_cons_self c t)
    cases t with
    | nil =>
      rw [List.cons_append, List.nil_append]
      unfold p1AtStart
      rw [if_neg (by simp [hc.2])]
      simp [htail]
    | cons c' t' =>
      have hc' := hname c' (List.mem_cons_of_mem c (List.mem_cons_self c' t'))
      rw [List.cons_append]
      unfold p1AtStart
      rw [if_neg (by simp [hc.2])]
      rw [List.cons_append]
      have hstep : p1AtStart (c :: acc) ((c' :: t') ++ ':' :: tail) =
          some ((c :: acc).reverse ++ (c' :: t'), q, u) :=
        ih (c :: acc) (by simp)
          (fun d hd => hname d (List.mem_cons_of_mem c hd))
      rw [List.cons_append] at hstep
      have hmatch : (match (c' :: (t' ++ ':' :: tail) : List Char) with
          | ':' :: tail' =>
            (match p1Tail tail' with
             | some (q', u') => some ((c :: acc).reverse, q', u')
             | none => p1AtStart (c :: acc) (c' :: (t' ++ ':' :: tail)))
          | _ => p1AtStart (c :: acc) (c' :: (t' ++ ':' :: tail))) =
          p1AtStart (c :: acc) (c' :: (t' ++ ':' :: tail)) := by
        split
        · rename_i heq
          injection heq with h1 h2
          exact absurd h1 hc'.1
        · rfl
      rw [hmatch, hstep]
      simp

theorem p1Match_shape (c0 : Char) (nr q u1 u2 : List Char)
    (hname : ∀ c ∈ c0 :: nr, ¬ c = ':' ∧ isLineTerm c = false)
    (hq : q ≠ []) (hqd : ∀ c ∈ q, isDigitCh c = true)
    (hu1 : u1 ≠ []) (hu1w : ∀ c ∈ u1, isWordCh c = true) :
    p1Match ((c0 :: nr) ++ ':' :: ' ' :: (q ++ ' ' :: (u1 ++ ' ' :: u2))) =
      some (c0 :: nr, q, u1) := by
  have hat := p1AtStart_complete (c0 :: nr) []
    (' ' :: (q ++ ' ' :: (u1 ++ ' ' :: u2))) q u1 (by simp) hname
    (p1Tail_shape q u1 u2 hq hqd hu1 hu1w)
  unfold p1Match
  rw [List.cons_append]
  unfold tryStarts
  rw [List.cons_append] at hat
  rw [hat]
  simp

/-- C1 counterexample: on the exact line `"Concrete: 12 cu yd"` the unit
capture `(\w+)` takes only the first word, so the extractor emits unit
`"cu"`, not the two-word unit `"cu yd"` asserted by the claim. -/
theorem twoword_unit_cex :
    extractMaterialsFromText "Concrete: 12 cu yd" =
      [{ name := "Concrete", quantity := 12, unit := "cu",
         unitPrice := 0, totalPrice := 0 }] ∧
    ¬ (extractMaterialsFromText "Concrete: 12 cu yd" =
      [{ name := "Concrete", quantity := 12, unit := "cu yd",
         unitPrice := 0, totalPrice := 0 }]) := by
  refine ⟨by decide, by decide⟩

/-- C1 (amended): for every line of the exact shape
`"<name>: <quantity> <unit1> <unit2>"` — nonempty name that starts with a
non-space and contains no `:` and no line terminator, nonempty digit-run
quantity parsing to a positive value, and a two-word unit made of `\w`
characters — the extractor emits exactly one material whose name is the
cleaned (title-cased) name, whose quantity is the parsed quantity, and
whose unit is the *first word only* of the unit (run through
`standardizeUnit`); the second unit word is dropped by the `(\w+)`
capture. -/
theorem wellformed_line_first_word_unit (c0 : Char) (nr q u1 u2 : List Char)
    (hc0 : isJsWs c0 = false)
    (hname : ∀ c ∈ c0 :: nr, ¬ c = ':' ∧ isLineTerm c = false)
    (hq : q ≠ []) (hqd : ∀ c ∈ q, isDigitCh c = true)
    (hpos : 0 < parseFloatQ q)
    (hu1 : u1 ≠ []) (hu1w : ∀ c ∈ u1, isWordCh c = true)
    (hu2 : u2 ≠ []) (hu2w : ∀ c ∈ u2, isWordCh c = true) :
    extractMaterialsFromText
        ⟨(c0 :: nr) ++ ':' :: ' ' :: (q ++ ' ' :: (u1 ++ ' ' :: u2))⟩ =
      [{ name := ⟨cleanMaterialName (c0 :: nr)⟩, quantity := parseFloatQ q,
         unit := standardizeUnit ⟨u1⟩, unitPrice := 0, totalPrice := 0 }] := by
  have hnl : ('\n' : Char) ∉ (c0 :: nr) ++ ':' :: ' ' :: (q ++ ' ' :: (u1 ++ ' ' :: u2)) := by
    intro hm
    rcases List.mem_append.mp hm with h | h
    · exact absurd (hname _ h).2 (by decide)
    · rcases List.mem_cons.mp h with h1 | h
      · exact absurd h1 (by decide)
      · rcases List.mem_cons.mp h with h1 | h
        · exact absurd h1 (by decide)
        · rcases List.mem_append.mp h with h | h
          · exact absurd (hqd _ h) (by decide)
          · rcases List.mem_cons.mp h with h1 | h
            · exact absurd h1 (by decide)
            · rcases List.mem_append.mp h with h | h
              · exact absurd (hu1w _ h) (by decide)
              · rcases List.mem_cons.mp h with h1 | h
                · exact absurd h1 (by decide)
                · exact absurd (hu2w _ h) (by decide)
  have htrim : jsTrim ((c0 :: nr) ++ ':' :: ' ' :: (q ++ ' ' :: (u1 ++ ' ' :: u2))) =
      (c0 :: nr) ++ ':' :: ' ' :: (q ++ ' ' :: (u1 ++ ' ' :: u2)) := by
    refine jsTrim_id _ ?_ ?_
    · intro c hc
      rw [List.cons_append] at hc
      simp only [List.head?_cons, Option.some.injEq] at hc
      rw [← hc]
      exact hc0
    · cases hrev : u2.reverse with
      | nil => exact absurd (List.reverse_eq_nil_iff.mp hrev) hu2
      | cons d t2 =>
        intro c hc
        rw [show ((c0 :: nr) ++ ':' :: ' ' :: (q ++ ' ' :: (u1 ++ ' ' :: u2))).reverse =
            d :: (t2 ++ (' ' :: u1.reverse ++
              (' ' :: q.reverse ++ (' ' :: ':' :: (c0 :: nr).reverse)))) by
          simp [List.reverse_append, hrev]] at hc
        simp only [List.head?_cons, Option.some.injEq] at hc
        rw [← hc]
        refine wordCh_not_ws d (hu2w d ?_)
        exact List.mem_reverse.mp (hrev ▸ List.mem_cons_self d t2)
  have hlen : ¬ ((c0 :: nr) ++ ':' :: ' ' :: (q ++ ' ' :: (u1 ++ ' ' :: u2))).length < 5 := by
    have hql : 0 < q.length := List.length_pos.mpr hq
    have hu1l : 0 < u1.length := List.length_pos.mpr hu1
    have hu2l : 0 < u2.length := List.length_pos.mpr hu2
    simp only [List.length_append, List.length_cons]
    omega
  have hp1 : runPattern Pat.p1
      ((c0 :: nr) ++ ':' :: ' ' :: (q ++ ' ' :: (u1 ++ ' ' :: u2))) =
      some (c0 :: nr, q, u1) :=
    p1Match_shape c0 nr q u1 u2 hname hq hqd hu1 hu1w
  unfold extractMaterialsFromText processedLines
  rw [show (⟨(c0 :: nr) ++ ':' :: ' ' :: (q ++ ' ' :: (u1 ++ ' ' :: u2))⟩ : String).data =
      (c0 :: nr) ++ ':' :: ' ' :: (q ++ ' ' :: (u1 ++ ' ' :: u2)) from rfl]
  rw [splitNl_no_nl _ hnl, List.filterMap_cons]
  simp only [htrim, if_neg hlen]
  have htp : tryPatterns patterns
      ((c0 :: nr) ++ ':' :: ' ' :: (q ++ ' ' :: (u1 ++ ' ' :: u2))) =
      some { name := ⟨cleanMaterialName (c0 :: nr)⟩, quantity := parseFloatQ q,
             unit := standardizeUnit ⟨u1⟩, unitPrice := 0, totalPrice := 0 } := by
    rw [show patterns = [Pat.p1, Pat.p2, Pat.p3] from rfl, tryPatterns_cons]
    rw [show attemptPattern Pat.p1
        ((c0 :: nr) ++ ':' :: ' ' :: (q ++ ' ' :: (u1 ++ ' ' :: u2))) =
        some { name := ⟨cleanMaterialName (c0 :: nr)⟩, quantity := parseFloatQ q,
               unit := standardizeUnit ⟨u1⟩, unitPrice := 0, totalPrice := 0 } by
      unfold attemptPattern
      simp only [hp1]
      rw [if_pos (⟨List.cons_ne_nil c0 nr, hpos, hu1⟩ :
        (c0 :: nr) ≠ [] ∧ 0 < parseFloatQ q ∧ u1 ≠ [])]]
  rw [htp]
  simp

/-- Witness for C1 (amended) at the claim's own example line
`"Concrete: 12 cu yd"`. -/
theorem wellformed_line_witness :
    extractMaterialsFromText
        ⟨('C' :: "oncrete".data) ++ ':' :: ' ' ::
          ("12".data ++ ' ' :: ("cu".data ++ ' ' :: "yd".data))⟩ =
      [{ name := ⟨cleanMaterialName ('C' :: "oncrete".data)⟩,
         quantity := parseFloatQ "12".data,
         unit := standardizeUnit ⟨"cu".data⟩, unitPrice := 0, totalPrice := 0 }] :=
  wellformed_line_first_word_unit 'C' "oncrete".data "12".data "cu".data "yd".data
    (by decide) (by decide) (by decide) (by decide) (by decide)
    (by decide) (by decide) (by decide) (by decide)
